import Mathlib

/-!
Verification development for the `bootstrap` utility (Go).

The definitions below are a shallow embedding of the repository's
`main.go` (`parseS3URL`, `executeFile`, `shutdownSystem`, `main`)
together with the small pieces of the Go standard library they depend
on (`net/url.Parse`, `path/filepath.Ext`, `path/filepath.Base`,
`os.CreateTemp` name generation, `strings` helpers).  The program
embedded is the repository's current `main.go` — the revision carried
in the src/Makefile bundle, which defines `shutdownSystem` and uses
`s3client.Download` as `main_test.go` requires; the file staged as
src/main.go is an earlier revision of the same program (`parseS3URL`
and `executeFile` are identical in both).

Machine behaviour that matters to the claims is modelled explicitly:
Go's `os.Exit` terminates the process without running deferred
functions, and the shared `tmpPath` variable read by the interrupt
goroutine is threaded through the trace, so signal-driven interruption
can be stated.
-/

/-- Equality on `Except` is decidable when it is on both components
(needed so concrete runs of the fallible functions below evaluate with
`decide`). -/
instance {ε α : Type} [DecidableEq ε] [DecidableEq α] : DecidableEq (Except ε α) := fun a b =>
  match a, b with
  | .ok x, .ok y => if h : x = y then .isTrue (by simp [h]) else .isFalse (by simp [h])
  | .error x, .error y => if h : x = y then .isTrue (by simp [h]) else .isFalse (by simp [h])
  | .ok _, .error _ => .isFalse (by simp)
  | .error _, .ok _ => .isFalse (by simp)

/- ===== Character classes (ASCII, as used by net/url) ===== -/

/-- Letters, as classified by net/url's scheme scanner. -/
def isAlpha (c : Char) : Bool :=
  ('a' ≤ c && c ≤ 'z') || ('A' ≤ c && c ≤ 'Z')

/-- Decimal digits. -/
def isDigit (c : Char) : Bool :=
  '0' ≤ c && c ≤ '9'

/-- The extra characters net/url accepts inside a scheme after the first one. -/
def isSchemeSym (c : Char) : Bool :=
  c = '+' || c = '-' || c = '.'

/-- ASCII control bytes: net/url.Parse rejects URLs containing them. -/
def isCtlChar (c : Char) : Bool :=
  c.toNat < 32 || c.toNat == 127

/-- Hexadecimal digits, for percent-escape validation. -/
def isHexDigit (c : Char) : Bool :=
  isDigit c || ('a' ≤ c && c ≤ 'f') || ('A' ≤ c && c ≤ 'F')

/-- Numeric value of a hexadecimal digit. -/
def hexVal (c : Char) : Nat :=
  if isDigit c then c.toNat - 48
  else if 'a' ≤ c && c ≤ 'f' then c.toNat - 87
  else c.toNat - 55

/- ===== Path separators (Go os.IsPathSeparator) ===== -/

/-- Path separator test on Unix-like systems: only '/'. -/
def isSepUnix (c : Char) : Bool := c = '/'

/-- Path separator test on Windows: '/' or '\'. -/
def isSepWindows (c : Char) : Bool := c = '/' || c = '\\'

/-- Separator test selected by GOOS, as `runtime.GOOS == "windows"` does. -/
def isSepOf (goos : String) : Char → Bool :=
  if goos = "windows" then isSepWindows else isSepUnix

/-- The path-joining separator used by the OS temp directory. -/
def osSep (goos : String) : String :=
  if goos = "windows" then "\\" else "/"

/- ===== filepath.Ext ===== -/

/-- Core of `filepath.Ext`: walks the path from its last character
backwards (the input list is the reversed path); stops with `[]` at a
path separator, and returns the suffix from the dot when it first meets
a `'.'`.  `acc` holds, in order, the characters already passed. -/
def extAux (isSep : Char → Bool) (acc : List Char) : List Char → List Char
  | [] => []
  | c :: rest =>
    if isSep c then []
    else if c = '.' then '.' :: acc
    else extAux isSep (c :: acc) rest

/-- `path/filepath.Ext`: the suffix beginning at the final dot in the
final element of the path; empty if there is none. -/
def filepathExt (isSep : Char → Bool) (p : String) : String :=
  ⟨extAux isSep [] p.data.reverse⟩

/- ===== strings helpers ===== -/

/-- ASCII model of Go `strings.ToLower` (the strings compared by
`executeFile` — ".bat", ".cmd", ".ps1", ".py" — are ASCII, and no
Unicode character lowercases into them, so the ASCII model selects the
same dispatch case as Go's Unicode `ToLower`). -/
def toLowerStr (s : String) : String :=
  ⟨s.data.map Char.toLower⟩

/-- Model of `strings.TrimPrefix(p, "/")`: removes one leading '/' if present. -/
def goTrimLeadSlash : List Char → List Char
  | '/' :: rest => rest
  | l => l

/- ===== List splitting helpers (for net/url and os.CreateTemp) ===== -/

/-- Splits a list at the first occurrence of `ch`: returns the part
before it and the part after it, or `none` if `ch` does not occur. -/
def splitFirst (ch : Char) : List Char → Option (List Char × List Char)
  | [] => none
  | x :: xs =>
    if x = ch then some ([], xs)
    else (splitFirst ch xs).map (fun p => (x :: p.1, p.2))

/-- Splits a list at the last occurrence of `ch` (Go `strings.LastIndex`):
returns the part before it and the part after it. -/
def splitLast (ch : Char) (l : List Char) : Option (List Char × List Char) :=
  match splitFirst ch l.reverse with
  | none => none
  | some p => some (p.2.reverse, p.1.reverse)

/- ===== net/url model ===== -/

/-- Failure modes of the modelled net/url.Parse. -/
inductive URLErr where
  | ctlChar
  | missingScheme
  | invalidPort
  | invalidEscape
  | missingBracket
  deriving DecidableEq, Repr

/-- The fields of net/url.URL that `parseS3URL` reads. -/
structure GoURL where
  scheme : String
  host : String
  path : String
  deriving DecidableEq, Repr

/-- Model of net/url `getScheme`: scans for a ':' terminating a valid
scheme.  `orig` is the whole input (returned as the remainder when no
scheme is present), `acc` the scheme characters so far in reverse,
`first` whether we are at the first character. -/
def getSchemeCore (orig : List Char) : List Char → List Char → Bool →
    Except URLErr (List Char × List Char)
  | [], _, _ => .ok ([], orig)
  | c :: rest, acc, first =>
    if isAlpha c then getSchemeCore orig rest (c :: acc) false
    else if isDigit c || isSchemeSym c then
      if first then .ok ([], orig) else getSchemeCore orig rest (c :: acc) false
    else if c = ':' then
      if first then .error .missingScheme else .ok (acc.reverse, rest)
    else .ok ([], orig)

/-- Model of net/url `unescape`: decodes %xx escapes, failing on
malformed ones; other characters pass through. -/
def unescapeList : List Char → Except URLErr (List Char)
  | [] => .ok []
  | c :: rest =>
    if c = '%' then
      match rest with
      | a :: b :: rest2 =>
        if isHexDigit a && isHexDigit b then
          (unescapeList rest2).map (fun r => Char.ofNat (hexVal a * 16 + hexVal b) :: r)
        else .error .invalidEscape
      | _ => .error .invalidEscape
    else (unescapeList rest).map (fun r => c :: r)

/-- Go net/url `validOptionalPort`: empty, or ':' followed by digits only. -/
def validOptionalPort : List Char → Bool
  | [] => true
  | ':' :: rest => rest.all isDigit
  | _ => false

/-- Model of net/url `parseHost`: checks the bracketed IPv6 form, checks
the optional port after the last ':', and percent-unescapes the host. -/
def parseHostList (host : List Char) : Except URLErr (List Char) :=
  if host.head? = some '[' then
    match splitLast ']' host with
    | none => .error .missingBracket
    | some p =>
      if validOptionalPort p.2 then unescapeList host else .error .invalidPort
  else
    match splitLast ':' host with
    | none => unescapeList host
    | some p =>
      if validOptionalPort (':' :: p.2) then unescapeList host else .error .invalidPort

/-- Model of net/url `parseAuthority`: userinfo (before the last '@') is
split off; the host part is parsed.  (Userinfo character validation is
not modelled; the claims quantify only over inputs without '@'.) -/
def parseAuthorityList (authority : List Char) : Except URLErr (List Char) :=
  match splitLast '@' authority with
  | none => parseHostList authority
  | some p => parseHostList p.2

/-- Authority-form branch of net/url `parse`: the authority extends to
the first '/', the path (beginning with that '/') is percent-unescaped. -/
def urlWithAuthority (scheme after : List Char) : Except URLErr GoURL :=
  match parseAuthorityList (after.takeWhile (fun c => c != '/')) with
  | .error e => .error e
  | .ok host =>
    match unescapeList (after.dropWhile (fun c => c != '/')) with
    | .error e => .error e
    | .ok path => .ok ⟨⟨scheme⟩, ⟨host⟩, ⟨path⟩⟩

/-- Remainder of net/url `parse` after the scheme: "//" introduces an
authority; otherwise a non-'/' remainder with a scheme is opaque (empty
Host and Path), and anything else is a plain path. -/
def urlAfterScheme (scheme rest : List Char) : Except URLErr GoURL :=
  match rest with
  | '/' :: '/' :: after => urlWithAuthority scheme after
  | _ =>
    if !scheme.isEmpty && rest.head? != some '/' then
      .ok ⟨⟨scheme⟩, "", ""⟩
    else
      match unescapeList rest with
      | .error e => .error e
      | .ok path => .ok ⟨⟨scheme⟩, "", ⟨path⟩⟩

/-- Model of net/url.Parse on a character list: drop the fragment,
reject control characters, scan the scheme (lower-cased, as net/url
does), drop the query, then parse authority and path. -/
def urlParseList (l : List Char) : Except URLErr GoURL :=
  let noFrag := l.takeWhile (fun c => c != '#')
  if noFrag.any isCtlChar then .error .ctlChar
  else
    match getSchemeCore noFrag noFrag [] true with
    | .error e => .error e
    | .ok p =>
      urlAfterScheme (p.1.map Char.toLower) (p.2.takeWhile (fun c => c != '?'))

/-- Model of net/url.Parse (the fragment of it `parseS3URL` exercises). -/
def urlParse (s : String) : Except URLErr GoURL :=
  urlParseList s.data

/- ===== parseS3URL (src/main.go lines 20–29) ===== -/

/-- The two error shapes of `parseS3URL`: a URL-parse failure is wrapped
as "invalid S3 URL: ..." and a scheme mismatch reported as
"not an S3 URL (should start with s3://)".  (These are the spec's
`InvalidLocator` and `UnsupportedScheme`.) -/
inductive S3URLErr where
  | invalidURL (e : URLErr)
  | notS3URL
  deriving DecidableEq, Repr

/-- Embedding of `parseS3URL` (src/main.go lines 20–29): parse the URL,
require scheme "s3", and return the host and the path with its leading
'/' stripped. -/
def parseS3URL (s3url : String) : Except S3URLErr (String × String) :=
  match urlParse s3url with
  | .error e => .error (.invalidURL e)
  | .ok u =>
    if u.scheme = "s3" then .ok (u.host, ⟨goTrimLeadSlash u.path.data⟩)
    else .error .notS3URL

/-- Whether the input parses as a URL whose scheme is "s3" (the guard
`parseS3URL` checks); `false` both for other schemes and for strings
net/url rejects. -/
def schemeIsS3 (s : String) : Bool :=
  match urlParse s with
  | .ok u => u.scheme == "s3"
  | .error _ => false

/- ===== executeFile (src/main.go lines 31–57) ===== -/

/-- The command configuration `executeFile` builds: the argv of the
child process, and whether each standard stream is inherited from the
current process (lines 53–55 set all three to the process streams). -/
structure CmdSpec where
  argv : List String
  stdinInherit : Bool
  stdoutInherit : Bool
  stderrInherit : Bool
  deriving DecidableEq, Repr

/-- Embedding of `executeFile` (src/main.go lines 31–57): on Windows the
lower-cased `filepath.Ext` of the path selects an interpreter shim
(".bat"/".cmd" via cmd, ".ps1" via powershell, ".py" via python,
anything else direct); elsewhere the path is invoked directly.  All
three standard streams are inherited. -/
def executeFileCmd (goos path : String) : CmdSpec :=
  let argv :=
    if goos = "windows" then
      let ext := toLowerStr (filepathExt isSepWindows path)
      if ext = ".bat" || ext = ".cmd" then ["cmd", "/C", path]
      else if ext = ".ps1" then ["powershell", "-File", path]
      else if ext = ".py" then ["python", path]
      else [path]
    else [path]
  ⟨argv, true, true, true⟩

/-- The invocation strategies named by the spec's Executor section. -/
inductive InvocationStrategy where
  | direct
  | commandShell
  | powershellHost
  | pythonInterp
  deriving DecidableEq, Repr

/-- The dispatch table exactly as the spec states it: chosen solely from
the platform and the case-insensitively compared extension. -/
def specDispatch (windows : Bool) (extLower : String) : InvocationStrategy :=
  if windows then
    if extLower = ".bat" || extLower = ".cmd" then .commandShell
    else if extLower = ".ps1" then .powershellHost
    else if extLower = ".py" then .pythonInterp
    else .direct
  else .direct

/-- The argv each spec strategy produces for a given path. -/
def strategyArgv : InvocationStrategy → String → List String
  | .direct, p => [p]
  | .commandShell, p => ["cmd", "/C", p]
  | .powershellHost, p => ["powershell", "-File", p]
  | .pythonInterp, p => ["python", p]

/-- Characters admitted in a container (bucket) name by the C6 theorem:
letters, digits, '-', '_', '.'.  None of them is treated specially by
net/url inside an authority. -/
def hostSafe (c : Char) : Bool :=
  (97 ≤ c.toNat && c.toNat ≤ 122) || (65 ≤ c.toNat && c.toNat ≤ 90) ||
  (48 ≤ c.toNat && c.toNat ≤ 57) || c = '-' || c = '_' || c = '.'

/-- Characters admitted in an object key by the C6 theorem: the safe
host characters plus the path separator '/'. -/
def keySafe (c : Char) : Bool :=
  hostSafe c || c = '/'

/- ===== filepath.Base and the os.CreateTemp pattern ===== -/

/-- The platform's path-joining separator character. -/
def sepCharOf (goos : String) : Char :=
  if goos = "windows" then '\\' else '/'

/-- `path/filepath.Base`: an empty path gives ".", trailing separators
are stripped, the element after the last remaining separator is
returned, and a path consisting only of separators gives the separator
itself.  (Windows volume-name stripping is not modelled; the theorem
that quantifies over keys restricts Windows-target keys to colon- and
backslash-free strings, on which `VolumeName` is empty.) -/
def filepathBase (goos : String) (p : String) : String :=
  if p = "" then "."
  else
    let r := p.data.reverse.dropWhile (isSepOf goos)
    let base := (r.takeWhile (fun c => !(isSepOf goos c))).reverse
    if base = [] then ⟨[sepCharOf goos]⟩ else ⟨base⟩

/-- The pattern `main` passes to `os.CreateTemp`:
`"bootstrap-*-" + filepath.Base(key)`. -/
def tmpPattern (goos key : String) : String :=
  "bootstrap-*-" ++ filepathBase goos key

/-- `os.CreateTemp` name generation (os `prefixAndSuffix`): the random
string replaces the last '*' of the pattern; with no '*' it is appended. -/
def createTempName (pattern rand : String) : String :=
  match splitFirst '*' pattern.data.reverse with
  | none => pattern ++ rand
  | some p => ⟨p.2.reverse ++ rand.data ++ p.1.reverse⟩

/-- The full temporary path `main` records (`targetFile.Name()`): the OS
temp directory joined with the generated name. -/
def tmpPathOf (tempDir rand goos key : String) : String :=
  tempDir ++ osSep goos ++ createTempName (tmpPattern goos key) rand

/- ===== The observable events of main ===== -/

/-- Observable effects of a run of `main` (and of `shutdownSystem`,
whose events `main` splices into its own trace). -/
inductive Ev where
  | armSignalHandler
  | loadConfig
  | getObject (bucket key : String)
  | bodyClose
  | mkdirParents (target : String)
  | createFile (path : String)
  | createTemp (pattern : String)
  | chmod (path : String) (mode : Nat)
  | copyStream (dst : String)
  | fileClose (path : String)
  | execFile (path : String)
  | removeFile (path : String)
  | sleep (delay : Nat)
  | runCmd (argv : List String)
  | stdoutLine (s : String)
  | stderrLine (s : String)
  deriving DecidableEq, Repr

/-- Recognizes the close of the fetched S3 object body. -/
def isBodyCloseEv : Ev → Bool
  | .bodyClose => true
  | _ => false

/-- Recognizes the arming of a signal handler. -/
def isArmEv : Ev → Bool
  | .armSignalHandler => true
  | _ => false

/-- Recognizes a file removal. -/
def isRemoveEv : Ev → Bool
  | .removeFile _ => true
  | _ => false

/-- Recognizes the creation of the temporary file. -/
def isCreateTempEv : Ev → Bool
  | .createTemp _ => true
  | _ => false

/-- Recognizes the creation of the destination file (temporary or
explicit save path). -/
def isCreateEv : Ev → Bool
  | .createTemp _ => true
  | .createFile _ => true
  | _ => false

/-- Recognizes the permission-setting step. -/
def isChmodEv : Ev → Bool
  | .chmod _ _ => true
  | _ => false

/-- Recognizes the stream-copy step. -/
def isCopyEv : Ev → Bool
  | .copyStream _ => true
  | _ => false

/-- Recognizes the close of the destination file handle. -/
def isFileCloseEv : Ev → Bool
  | .fileClose _ => true
  | _ => false

/-- Recognizes the execution of a real command by the Shutdown
Scheduler. -/
def isRunCmdEv : Ev → Bool
  | .runCmd _ => true
  | _ => false

/- ===== Shutdown Scheduler (shutdownSystem in main.go) ===== -/

/-- Go fmt's %v rendering of a string slice: the elements space-joined
inside square brackets (the shape `fmt.Printf("... %v\n", cmd.Args)`
prints). -/
def goSliceFmt (argv : List String) : String :=
  "[" ++ String.intercalate " " argv ++ "]"

/-- The platform shutdown command `shutdownSystem` builds:
`shutdown /s /t 0` on Windows, `sudo shutdown -h now` elsewhere. -/
def shutdownCmdArgv (goos : String) : List String :=
  if goos = "windows" then ["shutdown", "/s", "/t", "0"]
  else ["sudo", "shutdown", "-h", "now"]

/-- Embedding of `shutdownSystem(duration, debug)`: sleep for the
duration, build the platform command; if debug, print
"Debug: Would execute command: " followed by the %v rendering of
`cmd.Args` and return nil without executing anything; otherwise run the
command and surface its outcome. -/
def shutdownSystem (delay : Nat) (debug : Bool) (goos : String) (runOk : Bool) :
    List Ev × Bool :=
  let argv := shutdownCmdArgv goos
  if debug then
    ([Ev.sleep delay,
      Ev.stdoutLine ("Debug: Would execute command: " ++ goSliceFmt argv)], true)
  else
    ([Ev.sleep delay, Ev.runCmd argv], runOk)

/- ===== main (the lifecycle coordinator) ===== -/

/-- The outcomes of the external calls `main` makes, plus its inputs:
the positional arguments, the --save, --exec, --post-exec and --debug
flags, the platform, and the random component `os.CreateTemp` chooses. -/
structure Env where
  argv : List String
  saveFlag : String
  execFlag : Bool
  postExecFlag : String
  debugFlag : Bool
  goos : String
  configOk : Bool
  fetchOk : Bool
  mkdirOk : Bool
  createOk : Bool
  tempDir : String
  randName : String
  chmodOk : Bool
  copyOk : Bool
  execOk : Bool
  shutdownOk : Bool
  deriving Repr

/-- Pairs each event with a fixed value of the shared `tmpPath`
variable — the state the interrupt goroutine reads when it fires. -/
def tag (o : Option String) (evs : List Ev) : List (Ev × Option String) :=
  evs.map (fun e => (e, o))

/-- The write/execute tail of `main`, shared by the --save and temp-file
branches: `io.Copy` runs first, then on non-Windows `Chmod(0755)`, then
the file handle is closed.  With --exec, the file is executed (a failure
is printed and recorded as exit status 1, not fatal), then the
--post-exec shutdown step runs if configured, and the branch always
ends in `os.Exit(exitStatus)` — which does not run deferred functions,
so neither the deferred `result.Close()` nor the deferred
`os.Remove(targetPath)` of the temp+exec case (both held in `defers`)
ever executes there.  Without --exec, the path is printed and the
normal return runs the deferred closers in `defers` (LIFO order: a
deferred remove, had one been registered, would run first). -/
def writeTailSt (env : Env) (targetPath : String) (rec : Option String)
    (defers : List Ev) (tr : List (Ev × Option String)) :
    List (Ev × Option String) × Nat :=
  let tr3 := tr ++ tag rec [Ev.copyStream targetPath]
  if env.copyOk then
    let tr4 := if env.goos = "windows" then tr3
               else tr3 ++ tag rec [Ev.chmod targetPath 493]
    if env.goos != "windows" && !env.chmodOk then
      (tr4 ++ tag rec [Ev.stderrLine "Error making file executable"], 1)
    else
      let tr5 := tr4 ++ tag rec [Ev.fileClose targetPath]
      if env.execFlag then
        let tr6 := tr5 ++ tag rec [Ev.execFile targetPath]
        let p := if env.execOk then (tr6, 0)
                 else (tr6 ++ tag rec [Ev.stderrLine "Error executing file"], 1)
        if env.postExecFlag = "shutdown" then
          let sh := shutdownSystem 20 env.debugFlag env.goos env.shutdownOk
          let tr8 := p.1 ++
            tag rec (Ev.stdoutLine "System will shutdown in 20 seconds..." :: sh.1)
          if sh.2 then
            (tr8, p.2)
          else
            (tr8 ++ tag rec [Ev.stderrLine "Error initiating shutdown"], 1)
        else
          (p.1, p.2)
      else
        (tr5 ++ tag rec (Ev.stdoutLine targetPath :: defers), 0)
  else
    (tr3 ++ tag rec [Ev.stderrLine "Error copying S3 object to file"], 1)

/-- Embedding of the repository's `main` (the current main.go, carried
in the src/Makefile bundle — the revision that defines `shutdownSystem`
and uses `s3client.Download`, as main_test.go requires; the file staged
as src/main.go is an earlier revision of the same program).  Each
observable event is paired with the value of the shared `tmpPath`
variable at that point; the second component is the exit status of the
uninterrupted run.  Faithful points: the interrupt handler is armed
first, before flag validation and any network or filesystem work;
`tmpPath` is recorded only in the temp-file branch, right after
`os.CreateTemp` succeeds; `io.Copy` precedes the non-Windows
`Chmod(0755)`; an execution failure sets `exitStatus = 1` and the flow
continues to the --post-exec step; the --exec branch always ends in
`os.Exit(exitStatus)`, skipping every deferred function. -/
def mainRunSt (env : Env) : List (Ev × Option String) × Nat :=
  let tr0 := tag none [Ev.armSignalHandler]
  if env.postExecFlag != "" && !env.execFlag then
    (tr0 ++ tag none [Ev.stderrLine "Error: --post-exec can only be used with --exec"], 1)
  else if env.postExecFlag != "" && env.postExecFlag != "shutdown" then
    (tr0 ++ tag none [Ev.stderrLine "Error: invalid --post-exec value. Valid values: shutdown"], 1)
  else
    match env.argv with
    | [s3url] =>
      match parseS3URL s3url with
      | .error _ => (tr0 ++ tag none [Ev.stderrLine "Error parsing S3 URL"], 1)
      | .ok bk =>
        if env.configOk then
          let tr1 := tr0 ++ tag none [Ev.loadConfig, Ev.getObject bk.1 bk.2]
          if env.fetchOk then
            -- defer result.Close(): runs only on a normal return from main
            if env.saveFlag != "" then
              let targetPath := env.saveFlag
              let tr2 := tr1 ++ tag none [Ev.mkdirParents targetPath]
              if env.mkdirOk then
                let tr3 := tr2 ++ tag none [Ev.createFile targetPath]
                if env.createOk then
                  -- tmpPath is NOT recorded for an explicit save path
                  writeTailSt env targetPath none [Ev.bodyClose] tr3
                else (tr3 ++ tag none [Ev.stderrLine "Error creating file"], 1)
              else (tr2 ++ tag none [Ev.stderrLine "Error creating directories"], 1)
            else
              let pat := tmpPattern env.goos bk.2
              let tr2 := tr1 ++ tag none [Ev.createTemp pat]
              if env.createOk then
                let targetPath := tmpPathOf env.tempDir env.randName env.goos bk.2
                -- tmpPath := targetPath, read by the interrupt goroutine;
                -- with --exec, defer os.Remove(targetPath) is also registered
                let defers := if env.execFlag
                              then [Ev.removeFile targetPath, Ev.bodyClose]
                              else [Ev.bodyClose]
                writeTailSt env targetPath (some targetPath) defers tr2
              else (tr2 ++ tag none [Ev.stderrLine "Error creating temporary file"], 1)
          else (tr1 ++ tag none [Ev.stderrLine "error getting object from S3"], 1)
        else (tr0 ++ tag none [Ev.loadConfig, Ev.stderrLine "Unable to load AWS config"], 1)
    | _ => (tr0 ++ tag none [Ev.stderrLine "Usage"], 1)

/-- The observable trace and exit status of an uninterrupted run. -/
def mainRun (env : Env) : List Ev × Nat :=
  ((mainRunSt env).1.map Prod.fst, (mainRunSt env).2)

/-- The `tmpPath` value the interrupt goroutine reads if the signal
fires after the first `k` observable events. -/
def recordedAt (env : Env) (k : Nat) : Option String :=
  match ((mainRunSt env).1.take k).getLast? with
  | some pr => pr.2
  | none => none

/-- The interrupt goroutine (first receipt of the signal): removes the
recorded temporary path if one is set (the `os.Remove` error is
discarded), cancels the context, and exits with status 1. -/
def handlerRun (rec : Option String) : List Ev × Nat :=
  match rec with
  | some p => ([Ev.removeFile p], 1)
  | none => ([], 1)

/-- A run interrupted after its first `k` observable events: the signal
pre-empts the rest of the main sequence, so only the handler's cleanup
and its non-zero exit still happen. -/
def interruptedRun (env : Env) (k : Nat) : List Ev × Nat :=
  ((mainRun env).1.take k ++ (handlerRun (recordedAt env k)).1, 1)

/- ===== Concrete environments used by the closed theorems ===== -/

/-- An --exec run on Linux whose child fails, with `--post-exec
shutdown --debug`; everything else succeeds. -/
def envExecFail : Env :=
  ⟨["s3://b/run.sh"], "", true, "shutdown", true, "linux", true, true, true, true,
   "/tmp", "123456", true, true, false, true⟩

/-- A run on Linux where the stream copy into the temp file fails
(no --exec). -/
def envCopyFail : Env :=
  ⟨["s3://b/run.sh"], "", false, "", false, "linux", true, true, true, true,
   "/tmp", "123456", true, false, true, true⟩

/-- A fully successful run on Linux without --exec. -/
def envOkNoExec : Env :=
  ⟨["s3://b/run.sh"], "", false, "", false, "linux", true, true, true, true,
   "/tmp", "123456", true, true, true, true⟩

/- ===== Helper lemmas ===== -/

/-- Rebuilding a string from its character data gives the string back. -/
theorem strMkData (s : String) : (⟨s.data⟩ : String) = s := by
  cases s
  rfl

/-- The characters of an appended string are the appended characters. -/
theorem strDataAppend (a b : String) : (a ++ b).data = a.data ++ b.data := by
  cases a
  cases b
  rfl

/-- `takeWhile` keeps a whole list all of whose elements satisfy the predicate. -/
theorem takeWhileSelf {α : Type} (p : α → Bool) (l : List α) (h : ∀ a ∈ l, p a = true) :
    l.takeWhile p = l := by
  induction l with
  | nil => rfl
  | cons x xs ih =>
    simp only [List.takeWhile]
    rw [h x (by simp), ih (fun a ha => h a (by simp [ha]))]

/-- `takeWhile` over a list that first satisfies the predicate and then
hits a failing element returns exactly the satisfying part. -/
theorem takeWhileStop {α : Type} (p : α → Bool) (l1 : List α) (y : α) (l2 : List α)
    (h1 : ∀ a ∈ l1, p a = true) (h2 : p y = false) :
    (l1 ++ y :: l2).takeWhile p = l1 := by
  induction l1 with
  | nil => simp [List.takeWhile, h2]
  | cons x xs ih =>
    simp [List.takeWhile, h1 x (by simp), ih (fun a ha => h1 a (by simp [ha]))]

/-- `dropWhile` counterpart of `takeWhileStop`. -/
theorem dropWhileStop {α : Type} (p : α → Bool) (l1 : List α) (y : α) (l2 : List α)
    (h1 : ∀ a ∈ l1, p a = true) (h2 : p y = false) :
    (l1 ++ y :: l2).dropWhile p = y :: l2 := by
  induction l1 with
  | nil => simp [List.dropWhile, h2]
  | cons x xs ih =>
    simp [List.dropWhile, h1 x (by simp), ih (fun a ha => h1 a (by simp [ha]))]

/-- `any` is false on a list none of whose elements satisfies the predicate. -/
theorem anyFalse {α : Type} (p : α → Bool) (l : List α) (h : ∀ a ∈ l, p a = false) :
    l.any p = false := by
  induction l with
  | nil => rfl
  | cons x xs ih =>
    simp only [List.any_cons]
    rw [h x (by simp), ih (fun a ha => h a (by simp [ha]))]
    rfl

/-- `splitFirst` finds nothing when the character does not occur. -/
theorem splitFirstNone (ch : Char) (l : List Char) (h : ∀ a ∈ l, a ≠ ch) :
    splitFirst ch l = none := by
  induction l with
  | nil => rfl
  | cons x xs ih =>
    simp [splitFirst, h x (by simp), ih (fun a ha => h a (by simp [ha]))]

/-- `splitFirst` splits at the first occurrence. -/
theorem splitFirstAt (ch : Char) (l1 l2 : List Char) (h : ∀ a ∈ l1, a ≠ ch) :
    splitFirst ch (l1 ++ ch :: l2) = some (l1, l2) := by
  induction l1 with
  | nil => simp [splitFirst]
  | cons x xs ih =>
    simp [splitFirst, h x (by simp), ih (fun a ha => h a (by simp [ha]))]

/-- `splitLast` finds nothing when the character does not occur. -/
theorem splitLastNone (ch : Char) (l : List Char) (h : ∀ a ∈ l, a ≠ ch) :
    splitLast ch l = none := by
  unfold splitLast
  rw [splitFirstNone ch l.reverse (fun a ha => h a (List.mem_reverse.mp ha))]

/-- `unescapeList` is the identity (successfully) on percent-free input. -/
theorem unescapeListSelf (l : List Char) (h : ∀ c ∈ l, c ≠ '%') :
    unescapeList l = .ok l := by
  induction l with
  | nil => rfl
  | cons c rest ih =>
    rw [unescapeList.eq_def]
    simp only []
    rw [if_neg (h c (by simp))]
    rw [ih (fun a ha => h a (by simp [ha]))]
    rfl

/-- Projecting the events out of a tagged list gives the events back. -/
theorem tagFst (o : Option String) (evs : List Ev) : (tag o evs).map Prod.fst = evs := by
  induction evs with
  | nil => rfl
  | cons e rest ih =>
    simp only [tag, List.map_cons] at ih ⊢
    exact congrArg (List.cons e) ih

/-- Composition form of `tagFst`, for goals where `tag` got unfolded. -/
theorem tagFstComp (o : Option String) (evs : List Ev) :
    evs.map (Prod.fst ∘ fun e => (e, o)) = evs := by
  have := tagFst o evs
  simpa [tag, List.map_map] using this

/-- The head of an appended list is the head of its nonempty first part. -/
theorem headAppendSome {α : Type} (l1 l2 : List α) (x : α) (h : l1.head? = some x) :
    (l1 ++ l2).head? = some x := by
  cases l1 with
  | nil => simp at h
  | cons a t =>
    simp at h ⊢
    exact h

/-- `head?` commutes with `map`. -/
theorem headMap {α β : Type} (f : α → β) (l : List α) : (l.map f).head? = l.head?.map f := by
  cases l <;> rfl

/-- The write/execute tail only appends events: the head of its trace
is the head of the trace it was given. -/
theorem writeTail_head (env : Env) (t : String) (rec : Option String)
    (defers : List Ev) (tr : List (Ev × Option String)) (x : Ev × Option String)
    (htr : tr.head? = some x) :
    (writeTailSt env t rec defers tr).1.head? = some x := by
  simp only [writeTailSt, shutdownSystem]
  repeat' split
  all_goals repeat (first | exact htr | apply headAppendSome)

/-- The write/execute tail never emits a file removal: the deferred
remove of the temp+exec case sits in `defers`, and the only branch that
runs `defers` (the no-exec print path) is reached with --exec off. -/
theorem writeTail_countP_remove (env : Env) (t : String) (rec : Option String)
    (defers : List Ev) (tr : List (Ev × Option String))
    (htr : (tr.map Prod.fst).countP isRemoveEv = 0)
    (hdef : env.execFlag = false → defers.countP isRemoveEv = 0) :
    ((writeTailSt env t rec defers tr).1.map Prod.fst).countP isRemoveEv = 0 := by
  simp only [writeTailSt, shutdownSystem]
  repeat' split
  all_goals simp_all [tagFst, List.map_append, List.countP_append, List.countP_cons,
    isRemoveEv]
  all_goals exact htr

set_option maxHeartbeats 1000000 in
/-- The deferred body close runs exactly once on the no-exec print
path and never on the `os.Exit` paths of the write/execute tail. -/
theorem writeTail_countP_bodyClose (env : Env) (t : String) (rec : Option String)
    (defers : List Ev) (tr : List (Ev × Option String))
    (htr : (tr.map Prod.fst).countP isBodyCloseEv = 0)
    (hdef : defers.countP isBodyCloseEv = 1) :
    ((writeTailSt env t rec defers tr).1.map Prod.fst).countP isBodyCloseEv =
      if (writeTailSt env t rec defers tr).2 = 0 ∧ env.execFlag = false then 1 else 0 := by
  simp only [writeTailSt, shutdownSystem]
  repeat' split
  all_goals simp_all [tagFst, List.map_append, List.countP_append, List.countP_cons,
    isBodyCloseEv]
  all_goals exact htr

/-- No run of `main` — with any flags, on any path — ever removes a
file: the only removal ever registered is the deferred one of the
temp+exec case, and the --exec branch terminates through `os.Exit`,
which does not run deferred functions. -/
theorem mainRun_no_remove (env : Env) : (mainRun env).1.countP isRemoveEv = 0 := by
  simp only [mainRun, mainRunSt]
  repeat' split
  all_goals try (
    apply writeTail_countP_remove <;>
      first
        | (intro hf
           simp_all [List.countP_cons, List.countP_nil, isRemoveEv])
        | simp [tagFst, List.map_append, List.countP_append, List.countP_cons, isRemoveEv])
  all_goals simp [tagFst, List.map_append, List.countP_append, List.countP_cons, isRemoveEv]

/-- Every run of `main` begins by arming the interrupt handler: it is
the first observable event, before flag validation and any network or
filesystem work. -/
theorem mainRun_head_arm (env : Env) : (mainRun env).1.head? = some Ev.armSignalHandler := by
  have harm : ∀ rest : List (Ev × Option String),
      (tag none [Ev.armSignalHandler] ++ rest).head? = some (Ev.armSignalHandler, none) := by
    intro rest
    rfl
  simp only [mainRun, mainRunSt]
  rw [headMap]
  repeat' split
  all_goals first
  | (rw [writeTail_head env _ _ _ _ (Ev.armSignalHandler, none) (by
        repeat (first | exact harm _ | apply headAppendSome))]
     rfl)
  | simp [harm]

/-- A safe host character is none of the characters net/url treats
specially, and is not a control character. -/
theorem hostSafeFacts (c : Char) (h : hostSafe c = true) :
    c ≠ '#' ∧ c ≠ '?' ∧ c ≠ '/' ∧ c ≠ '@' ∧ c ≠ '[' ∧ c ≠ ':' ∧ c ≠ '%' ∧
    isCtlChar c = false := by
  refine ⟨?_, ?_, ?_, ?_, ?_, ?_, ?_, ?_⟩
  · intro hc; subst hc; exact absurd h (by decide)
  · intro hc; subst hc; exact absurd h (by decide)
  · intro hc; subst hc; exact absurd h (by decide)
  · intro hc; subst hc; exact absurd h (by decide)
  · intro hc; subst hc; exact absurd h (by decide)
  · intro hc; subst hc; exact absurd h (by decide)
  · intro hc; subst hc; exact absurd h (by decide)
  · simp only [hostSafe, Bool.or_eq_true, Bool.and_eq_true, decide_eq_true_eq] at h
    simp only [isCtlChar, Bool.or_eq_false_iff, decide_eq_false_iff_not, Nat.not_lt,
      beq_eq_false_iff_ne, ne_eq]
    rcases h with ((((h | h) | h) | h) | h) | h
    · omega
    · omega
    · omega
    · subst h; decide
    · subst h; decide
    · subst h; decide

/-- A safe key character is not '#', '?' or '%', and is not a control
character. -/
theorem keySafeFacts (c : Char) (h : keySafe c = true) :
    c ≠ '#' ∧ c ≠ '?' ∧ c ≠ '%' ∧ isCtlChar c = false := by
  simp only [keySafe, Bool.or_eq_true] at h
  rcases h with h | h
  · obtain ⟨h1, h2, _, _, _, _, h7, h8⟩ := hostSafeFacts c h
    exact ⟨h1, h2, h7, h8⟩
  · simp only [decide_eq_true_eq] at h
    subst h
    exact ⟨by decide, by decide, by decide, by decide⟩

/-- The scheme scanner applied to "s3:" followed by anything returns the
scheme "s3" and the remainder. -/
theorem getSchemeS3 (orig r : List Char) :
    getSchemeCore orig ('s' :: '3' :: ':' :: r) [] true = .ok (['s', '3'], r) := by
  rw [getSchemeCore]
  rw [if_pos (by decide : isAlpha 's' = true)]
  rw [getSchemeCore]
  rw [if_neg (by decide : ¬ isAlpha '3' = true)]
  rw [if_pos (by decide : (isDigit '3' || isSchemeSym '3') = true)]
  rw [if_neg (by decide : ¬ false = true)]
  rw [getSchemeCore]
  rw [if_neg (by decide : ¬ isAlpha ':' = true)]
  rw [if_neg (by decide : ¬ (isDigit ':' || isSchemeSym ':') = true)]
  rw [if_pos (rfl : ':' = ':')]
  rw [if_neg (by decide : ¬ false = true)]
  rfl

/-- Two strings with the same character data are equal. -/
theorem strExt (a b : String) (h : a.data = b.data) : a = b := by
  cases a
  cases b
  exact congrArg String.mk h

/-- Full description of `extAux`: the scan either produces nothing, or
the input splits into clean characters, a dot, and a remainder, the
result being the dot followed by the clean characters reversed onto
the accumulator. -/
theorem extAuxDecomp (isSep : Char → Bool) (l : List Char) :
    ∀ acc,
      extAux isSep acc l = [] ∨
      ∃ w r, l = w ++ '.' :: r ∧ extAux isSep acc l = '.' :: (w.reverse ++ acc) ∧
        ∀ c ∈ w, isSep c = false ∧ c ≠ '.' := by
  induction l with
  | nil =>
    intro acc
    left
    rfl
  | cons c rest ih =>
    intro acc
    rw [extAux]
    by_cases hsep : isSep c = true
    · rw [if_pos hsep]
      left
      rfl
    · rw [if_neg hsep]
      have hcf : isSep c = false := by
        cases h : isSep c with
        | false => rfl
        | true => exact absurd h hsep
      by_cases hdot : c = '.'
      · rw [if_pos hdot]
        right
        exact ⟨[], rest, by simp [hdot], by simp, by simp⟩
      · rw [if_neg hdot]
        rcases ih (c :: acc) with h | ⟨w, r, hl, hres, hw⟩
        · left
          exact h
        · right
          refine ⟨c :: w, r, by rw [List.cons_append, ← hl], ?_, ?_⟩
          · rw [hres]
            simp
          · intro a ha
            rcases List.mem_cons.mp ha with rfl | ha
            · exact ⟨hcf, hdot⟩
            · exact hw a ha

/-- `extAux` walks past characters that are neither separators nor
dots, pushing them onto the accumulator. -/
theorem extAuxSkip (isSep : Char → Bool) (l1 : List Char) :
    ∀ l2 acc, (∀ c ∈ l1, isSep c = false ∧ c ≠ '.') →
      extAux isSep acc (l1 ++ l2) = extAux isSep (l1.reverse ++ acc) l2 := by
  induction l1 with
  | nil =>
    intro l2 acc h
    simp
  | cons c rest ih =>
    intro l2 acc h
    have hc := h c (by simp)
    rw [List.cons_append, extAux, if_neg (by simp [hc.1]), if_neg hc.2]
    rw [ih l2 (c :: acc) (fun a ha => h a (by simp [ha]))]
    simp

/-- The extension scan only ever looks at the part of the (reversed)
path before the first separator. -/
theorem extAuxTakeWhileSep (isSep : Char → Bool) (l : List Char) :
    ∀ acc, extAux isSep acc l = extAux isSep acc (l.takeWhile (fun c => !(isSep c))) := by
  induction l with
  | nil =>
    intro acc
    rfl
  | cons c rest ih =>
    intro acc
    by_cases hsep : isSep c = true
    · rw [List.takeWhile_cons, if_neg (by simp [hsep])]
      simp [extAux, hsep]
    · rw [List.takeWhile_cons, if_pos (by simp [hsep])]
      by_cases hdot : c = '.'
      · simp [extAux, hsep, hdot]
      · simp only [extAux]
        rw [if_neg hsep, if_neg hdot, if_neg hsep, if_neg hdot]
        exact ih (c :: acc)

/-- If the extension scan of a separator-free list comes back empty,
every character of the list is clean (no separator, no dot). -/
theorem extAuxNilClean (isSep : Char → Bool) (l : List Char) :
    ∀ acc, extAux isSep acc l = [] → (∀ c ∈ l, isSep c = false) →
      ∀ c ∈ l, isSep c = false ∧ c ≠ '.' := by
  induction l with
  | nil =>
    intro acc _ _ c hc
    cases hc
  | cons x rest ih =>
    intro acc hres hsep c hc
    have hx : isSep x = false := hsep x (by simp)
    rw [extAux, if_neg (by simp [hx])] at hres
    by_cases hdot : x = '.'
    · rw [if_pos hdot] at hres
      simp at hres
    · rw [if_neg hdot] at hres
      rcases List.mem_cons.mp hc with rfl | hc
      · exact ⟨hx, hdot⟩
      · exact ih (x :: acc) hres (fun a ha => hsep a (by simp [ha])) c hc

/-- Elements kept by `takeWhile` satisfy the predicate. -/
theorem takeWhileMem {α : Type} (p : α → Bool) (l : List α) :
    ∀ a ∈ l.takeWhile p, p a = true := by
  induction l with
  | nil =>
    intro a ha
    cases ha
  | cons x xs ih =>
    intro a ha
    by_cases hx : p x = true
    · rw [List.takeWhile_cons, if_pos hx] at ha
      rcases List.mem_cons.mp ha with rfl | ha
      · exact hx
      · exact ih a ha
    · rw [List.takeWhile_cons, if_neg hx] at ha
      cases ha

/-- `dropWhile` keeps the whole list when its first element already
fails the predicate. -/
theorem dropWhileIdOfHead {α : Type} (p : α → Bool) (l : List α)
    (h : ∀ a, l.head? = some a → p a = false) : l.dropWhile p = l := by
  cases l with
  | nil => rfl
  | cons x xs => simp [List.dropWhile_cons, h x rfl]

/-- A decimal digit is not a path separator (on either platform) and
not a dot. -/
theorem digitFacts (goos : String) (c : Char) (h : isDigit c = true) :
    isSepOf goos c = false ∧ c ≠ '.' := by
  have h1 : c ≠ '/' := by
    intro hc
    subst hc
    exact absurd h (by decide)
  have h2 : c ≠ '\\' := by
    intro hc
    subst hc
    exact absurd h (by decide)
  have h3 : c ≠ '.' := by
    intro hc
    subst hc
    exact absurd h (by decide)
  refine ⟨?_, h3⟩
  unfold isSepOf
  by_cases hg : goos = "windows"
  · rw [if_pos hg]
    simp [isSepWindows, h1, h2]
  · rw [if_neg hg]
    simp [isSepUnix, h1]

/-- A hyphen is not a path separator (on either platform) and not a dot. -/
theorem dashFacts (goos : String) : isSepOf goos '-' = false ∧ ('-' : Char) ≠ '.' := by
  refine ⟨?_, by decide⟩
  unfold isSepOf
  by_cases hg : goos = "windows"
  · rw [if_pos hg]
    decide
  · rw [if_neg hg]
    decide

/-- No character of "bootstrap-" is a path separator or a dot. -/
theorem stemFacts (goos : String) :
    ∀ c ∈ ("bootstrap-" : String).data.reverse, isSepOf goos c = false ∧ c ≠ '.' := by
  unfold isSepOf
  by_cases hg : goos = "windows"
  · rw [if_pos hg]
    decide
  · rw [if_neg hg]
    decide

/-- The platform's joining separator character is recognized by the
platform's separator test. -/
theorem sepCharIsSep (goos : String) : isSepOf goos (sepCharOf goos) = true := by
  unfold isSepOf sepCharOf
  by_cases hg : goos = "windows"
  · rw [if_pos hg, if_pos hg]
    decide
  · rw [if_neg hg, if_neg hg]
    decide

/-- A dot is not a path separator on either platform. -/
theorem isSepDotFalse (goos : String) : isSepOf goos '.' = false := by
  unfold isSepOf
  by_cases hg : goos = "windows"
  · rw [if_pos hg]
    decide
  · rw [if_neg hg]
    decide

/-- The joining separator string consists of the single separator
character. -/
theorem osSepData (goos : String) : (osSep goos).data = [sepCharOf goos] := by
  unfold osSep sepCharOf
  by_cases hg : goos = "windows"
  · rw [if_pos hg, if_pos hg]
  · rw [if_neg hg, if_neg hg]

/-- `os.CreateTemp` name generation on the pattern `main` builds: when
the base name contains no '*', the random string replaces exactly the
literal '*' of "bootstrap-*-". -/
theorem createTempNameSplice (base rand : String) (h : ∀ c ∈ base.data, c ≠ '*') :
    createTempName ("bootstrap-*-" ++ base) rand
      = "bootstrap-" ++ rand ++ ("-" ++ base) := by
  unfold createTempName
  have hd : ("bootstrap-*-" ++ base).data.reverse
      = (base.data.reverse ++ ['-']) ++ '*' :: ("bootstrap-" : String).data.reverse := by
    rw [strDataAppend, List.reverse_append]
    rw [show ("bootstrap-*-" : String).data.reverse
        = '-' :: '*' :: ("bootstrap-" : String).data.reverse by decide]
    simp
  have hpre : ∀ a ∈ base.data.reverse ++ ['-'], a ≠ '*' := by
    intro a ha
    rcases List.mem_append.mp ha with ha | ha
    · exact h a (List.mem_reverse.mp ha)
    · simp at ha
      subst ha
      decide
  rw [hd, splitFirstAt '*' _ _ hpre]
  apply strExt
  simp [strDataAppend]

/-- The modelled net/url.Parse on a well-formed "s3://C/K" locator
yields scheme "s3", host C, and path "/K". -/
theorem urlParseS3Form (C K : String)
    (hC : ∀ c ∈ C.data, hostSafe c = true) (hK : ∀ c ∈ K.data, keySafe c = true) :
    urlParse ("s3://" ++ C ++ "/" ++ K) = .ok ⟨"s3", C, "/" ++ K⟩ := by
  have hCf := fun c hc => hostSafeFacts c (hC c hc)
  have hKf := fun c hc => keySafeFacts c (hK c hc)
  have hs : ("s3://" ++ C ++ "/" ++ K).data
      = 's' :: '3' :: ':' :: '/' :: '/' :: (C.data ++ '/' :: K.data) := by
    rw [strDataAppend, strDataAppend, strDataAppend]
    show ['s', '3', ':', '/', '/'] ++ C.data ++ ['/'] ++ K.data = _
    simp
  have hmem : ∀ a ∈ 's' :: '3' :: ':' :: '/' :: '/' :: (C.data ++ '/' :: K.data),
      a = 's' ∨ a = '3' ∨ a = ':' ∨ a = '/' ∨ a ∈ C.data ∨ a ∈ K.data := by
    intro a ha
    simp only [List.mem_cons, List.mem_append] at ha
    tauto
  have hTake1 : ('s' :: '3' :: ':' :: '/' :: '/' ::
      (C.data ++ '/' :: K.data)).takeWhile (fun c => c != '#')
      = 's' :: '3' :: ':' :: '/' :: '/' :: (C.data ++ '/' :: K.data) := by
    apply takeWhileSelf
    intro a ha
    rcases hmem a ha with rfl | rfl | rfl | rfl | ha | ha
    · decide
    · decide
    · decide
    · decide
    · exact bne_iff_ne.mpr (hCf a ha).1
    · exact bne_iff_ne.mpr (hKf a ha).1
  have hCtl : ('s' :: '3' :: ':' :: '/' :: '/' ::
      (C.data ++ '/' :: K.data)).any isCtlChar = false := by
    apply anyFalse
    intro a ha
    rcases hmem a ha with rfl | rfl | rfl | rfl | ha | ha
    · decide
    · decide
    · decide
    · decide
    · exact (hCf a ha).2.2.2.2.2.2.2
    · exact (hKf a ha).2.2.2
  have hTake2 : ('/' :: '/' :: (C.data ++ '/' :: K.data)).takeWhile (fun c => c != '?')
      = '/' :: '/' :: (C.data ++ '/' :: K.data) := by
    apply takeWhileSelf
    intro a ha
    have : a ∈ 's' :: '3' :: ':' :: '/' :: '/' :: (C.data ++ '/' :: K.data) := by
      simp only [List.mem_cons] at ha ⊢
      tauto
    rcases hmem a this with rfl | rfl | rfl | rfl | ha2 | ha2
    · decide
    · decide
    · decide
    · decide
    · exact bne_iff_ne.mpr (hCf a ha2).2.1
    · exact bne_iff_ne.mpr (hKf a ha2).2.1
  have hAuth : (C.data ++ '/' :: K.data).takeWhile (fun c => c != '/') = C.data :=
    takeWhileStop _ _ _ _ (fun a ha => bne_iff_ne.mpr (hCf a ha).2.2.1) (by decide)
  have hPath : (C.data ++ '/' :: K.data).dropWhile (fun c => c != '/') = '/' :: K.data :=
    dropWhileStop _ _ _ _ (fun a ha => bne_iff_ne.mpr (hCf a ha).2.2.1) (by decide)
  have hAt : splitLast '@' C.data = none :=
    splitLastNone _ _ (fun a ha => (hCf a ha).2.2.2.1)
  have hBr : ¬ C.data.head? = some '[' := by
    cases hCd : C.data with
    | nil => simp
    | cons c rest =>
      have hcmem : c ∈ C.data := by rw [hCd]; simp
      have : c ≠ '[' := (hCf c hcmem).2.2.2.2.1
      simp [this]
  have hColon : splitLast ':' C.data = none :=
    splitLastNone _ _ (fun a ha => (hCf a ha).2.2.2.2.2.1)
  have hEsc1 : unescapeList C.data = .ok C.data :=
    unescapeListSelf _ (fun a ha => (hCf a ha).2.2.2.2.2.2.1)
  have hEsc2 : unescapeList ('/' :: K.data) = .ok ('/' :: K.data) := by
    apply unescapeListSelf
    intro a ha
    rcases List.mem_cons.mp ha with rfl | ha
    · decide
    · exact (hKf a ha).2.2.1
  show urlParseList ("s3://" ++ C ++ "/" ++ K).data = _
  rw [hs]
  rw [urlParseList]
  simp only [hTake1, hCtl]
  rw [if_neg (by decide : ¬ (false = true))]
  rw [getSchemeS3]
  simp only []
  have hLower : (['s', '3'].map Char.toLower) = ['s', '3'] := by decide
  rw [hLower, hTake2]
  rw [urlAfterScheme]
  rw [urlWithAuthority]
  simp only [hAuth, hPath]
  rw [parseAuthorityList]
  simp only [hAt]
  rw [parseHostList]
  rw [if_neg hBr]
  simp only [hColon, hEsc1, hEsc2]
  have e2 : (⟨C.data⟩ : String) = C := strMkData C
  have e3 : (⟨'/' :: K.data⟩ : String) = "/" ++ K := by
    have hd : ("/" ++ K).data = '/' :: K.data := by
      rw [strDataAppend]
      rfl
    rw [← hd, strMkData]
  rw [e2, e3]

/-- `parseS3URL` succeeds on a well-formed "s3://C/K" locator, returning
the container C and the key K with the leading separator stripped. -/
theorem parseS3URLOkForm (C K : String)
    (hC : ∀ c ∈ C.data, hostSafe c = true) (hK : ∀ c ∈ K.data, keySafe c = true) :
    parseS3URL ("s3://" ++ C ++ "/" ++ K) = Except.ok (C, K) := by
  unfold parseS3URL
  rw [urlParseS3Form C K hC hK]
  simp only [if_true]
  have hd : ("/" ++ K).data = '/' :: K.data := by
    rw [strDataAppend]
    rfl
  rw [hd]
  simp only [goTrimLeadSlash]

/-- `parseS3URL` fails whenever the input does not parse as a URL with
scheme "s3": either the URL-parse failure is propagated (the code's
"invalid S3 URL" error) or the scheme check fails (the code's
"not an S3 URL (should start with s3://)" error). -/
theorem parseS3URLRejects (s : String) (h : schemeIsS3 s = false) :
    ∃ e, parseS3URL s = Except.error e := by
  unfold schemeIsS3 at h
  unfold parseS3URL
  cases hu : urlParse s with
  | error e => exact ⟨.invalidURL e, rfl⟩
  | ok u =>
    rw [hu] at h
    simp only [beq_eq_false_iff_ne, ne_eq] at h
    simp only []
    rw [if_neg h]
    exact ⟨.notS3URL, rfl⟩

/- ===== Claim theorems ===== -/

/-- C1: the interrupt handler is armed as the very first observable
action of every run — before flag validation and any network or
filesystem work — and a signal arriving after any k events pre-empts
the rest of the main sequence: the run becomes those first k events
followed only by the handler's cleanup (the removal of the recorded
temporary path when one has been recorded, nothing otherwise), and the
process exits with the non-zero status 1. -/
theorem main_signal_spec (env : Env) (k : Nat) :
    (mainRun env).1.head? = some Ev.armSignalHandler ∧
    (interruptedRun env k).2 = 1 ∧
    (interruptedRun env k).1 = (mainRun env).1.take k ++
      (match recordedAt env k with
        | some p => [Ev.removeFile p]
        | none => []) := by
  refine ⟨mainRun_head_arm env, rfl, ?_⟩
  unfold interruptedRun handlerRun
  cases recordedAt env k <;> rfl

/-- C2 (amended): the deferred `result.Close()` runs exactly once on
the no-exec normal-return runs (exit status 0 without --exec) and zero
times on every other exit path: every failure path, and the whole
--exec path — success included — terminate through `os.Exit`, which
does not run the deferred close. -/
theorem main_body_close_count (env : Env) :
    (mainRun env).1.countP isBodyCloseEv =
      if (mainRun env).2 = 0 ∧ env.execFlag = false then 1 else 0 := by
  simp only [mainRun, mainRunSt]
  repeat' split
  all_goals try (
    rw [writeTail_countP_bodyClose env _ _ _ _
      (by simp [tagFst, List.map_append, List.countP_append, List.countP_cons, isBodyCloseEv])
      (by simp [List.countP_cons, List.countP_nil, isBodyCloseEv])]
    first
      | rw [if_pos (by assumption)]
      | rw [if_neg (by assumption)])
  all_goals simp_all [tagFst, List.map_append, List.countP_append, List.countP_cons,
    isBodyCloseEv]

/-- C2 (counterexample): on the copy-failure exit path the copy was
attempted but the fetched stream is closed zero times (not once), and
the process exits with status 1; the claim's "closed exactly once on
every exit path, including ... the stream copy fails" is false. -/
theorem main_copy_failure_no_body_close :
    (mainRun envCopyFail).1.countP isCopyEv = 1 ∧
    (mainRun envCopyFail).1.countP isBodyCloseEv = 0 ∧
    (mainRun envCopyFail).2 = 1 := by decide

/-- C3: an execution failure is recorded, not fatal: with --exec and
--post-exec shutdown, a failing child leads to the error being printed
and exit status 1 being recorded, and the flow still proceeds to the
post-execution countdown and the Shutdown Scheduler before the process
exits with status 1. -/
theorem main_exec_failure_nonfatal (env : Env) (u : String) (bk : String × String)
    (h0 : env.argv = [u]) (h1 : parseS3URL u = Except.ok bk)
    (h2 : env.postExecFlag = "shutdown") (h3 : env.execFlag = true)
    (h4 : env.configOk = true) (h5 : env.fetchOk = true)
    (h6 : env.saveFlag = "") (h7 : env.createOk = true)
    (h8 : env.chmodOk = true) (h9 : env.copyOk = true)
    (h10 : env.execOk = false) (h11 : env.goos ≠ "windows") :
    (mainRun env).1 =
      [Ev.armSignalHandler, Ev.loadConfig, Ev.getObject bk.1 bk.2,
       Ev.createTemp (tmpPattern env.goos bk.2),
       Ev.copyStream (tmpPathOf env.tempDir env.randName env.goos bk.2),
       Ev.chmod (tmpPathOf env.tempDir env.randName env.goos bk.2) 493,
       Ev.fileClose (tmpPathOf env.tempDir env.randName env.goos bk.2),
       Ev.execFile (tmpPathOf env.tempDir env.randName env.goos bk.2),
       Ev.stderrLine "Error executing file",
       Ev.stdoutLine "System will shutdown in 20 seconds..."] ++
      (shutdownSystem 20 env.debugFlag env.goos env.shutdownOk).1 ++
      (if (shutdownSystem 20 env.debugFlag env.goos env.shutdownOk).2 then []
        else [Ev.stderrLine "Error initiating shutdown"]) ∧
    (mainRun env).2 = 1 := by
  simp only [mainRun, mainRunSt, writeTailSt, h0, h1, h2, h3, h4, h5, h6, h7, h8, h9, h10]
  by_cases hsh : (shutdownSystem 20 env.debugFlag env.goos env.shutdownOk).2 = true <;>
    simp_all [tagFst, tagFstComp, List.map_append, h11]

/-- Witness for C3: a concrete Linux run whose child fails, with
--post-exec shutdown in debug mode. -/
theorem main_exec_failure_nonfatal_witness :
    (mainRun envExecFail).1 =
      [Ev.armSignalHandler, Ev.loadConfig, Ev.getObject "b" "run.sh",
       Ev.createTemp (tmpPattern envExecFail.goos "run.sh"),
       Ev.copyStream (tmpPathOf "/tmp" "123456" envExecFail.goos "run.sh"),
       Ev.chmod (tmpPathOf "/tmp" "123456" envExecFail.goos "run.sh") 493,
       Ev.fileClose (tmpPathOf "/tmp" "123456" envExecFail.goos "run.sh"),
       Ev.execFile (tmpPathOf "/tmp" "123456" envExecFail.goos "run.sh"),
       Ev.stderrLine "Error executing file",
       Ev.stdoutLine "System will shutdown in 20 seconds..."] ++
      (shutdownSystem 20 envExecFail.debugFlag envExecFail.goos envExecFail.shutdownOk).1 ++
      (if (shutdownSystem 20 envExecFail.debugFlag envExecFail.goos envExecFail.shutdownOk).2
        then [] else [Ev.stderrLine "Error initiating shutdown"]) ∧
    (mainRun envExecFail).2 = 1 :=
  main_exec_failure_nonfatal envExecFail "s3://b/run.sh" ("b", "run.sh")
    rfl (by decide) rfl rfl rfl rfl rfl rfl rfl rfl rfl (by decide)

/-- C4: the temp+exec case does register `defer os.Remove(targetPath)`,
but the --exec branch always terminates through `os.Exit(exitStatus)`,
which does not run deferred functions — so no uninterrupted run of
`main` ever removes a file: the scheduled cleanup never executes,
whether execution succeeded or failed. -/
theorem main_never_removes_temp (env : Env) :
    (mainRun env).1.countP isRemoveEv = 0 :=
  mainRun_no_remove env

/-- C5: the Target Writer stream-copies the fetched bytes into the
created temporary file first, then on non-Windows targets sets the
file's permission bits to 0755 (decimal 493), then closes the handle;
on Windows the permission step is skipped. -/
theorem main_write_order (env : Env) (u : String) (bk : String × String)
    (h0 : env.argv = [u]) (h1 : parseS3URL u = Except.ok bk)
    (h2 : env.postExecFlag = "") (h3 : env.execFlag = false)
    (h4 : env.configOk = true) (h5 : env.fetchOk = true)
    (h6 : env.saveFlag = "") (h7 : env.createOk = true)
    (h8 : env.chmodOk = true) (h9 : env.copyOk = true) :
    (mainRun env).1 =
      (if env.goos = "windows" then
        [Ev.armSignalHandler, Ev.loadConfig, Ev.getObject bk.1 bk.2,
         Ev.createTemp (tmpPattern env.goos bk.2),
         Ev.copyStream (tmpPathOf env.tempDir env.randName env.goos bk.2),
         Ev.fileClose (tmpPathOf env.tempDir env.randName env.goos bk.2),
         Ev.stdoutLine (tmpPathOf env.tempDir env.randName env.goos bk.2),
         Ev.bodyClose]
      else
        [Ev.armSignalHandler, Ev.loadConfig, Ev.getObject bk.1 bk.2,
         Ev.createTemp (tmpPattern env.goos bk.2),
         Ev.copyStream (tmpPathOf env.tempDir env.randName env.goos bk.2),
         Ev.chmod (tmpPathOf env.tempDir env.randName env.goos bk.2) 493,
         Ev.fileClose (tmpPathOf env.tempDir env.randName env.goos bk.2),
         Ev.stdoutLine (tmpPathOf env.tempDir env.randName env.goos bk.2),
         Ev.bodyClose]) := by
  simp only [mainRun, mainRunSt, writeTailSt, h0, h1, h2, h3, h4, h5, h6, h7, h8, h9]
  by_cases hg : env.goos = "windows" <;>
    simp [hg, tagFst, tagFstComp, List.map_append]

/-- Witness for C5 at a concrete successful Linux run. -/
theorem main_write_order_witness :
    (mainRun envOkNoExec).1 =
      (if envOkNoExec.goos = "windows" then
        [Ev.armSignalHandler, Ev.loadConfig, Ev.getObject "b" "run.sh",
         Ev.createTemp (tmpPattern envOkNoExec.goos "run.sh"),
         Ev.copyStream (tmpPathOf "/tmp" "123456" envOkNoExec.goos "run.sh"),
         Ev.fileClose (tmpPathOf "/tmp" "123456" envOkNoExec.goos "run.sh"),
         Ev.stdoutLine (tmpPathOf "/tmp" "123456" envOkNoExec.goos "run.sh"),
         Ev.bodyClose]
      else
        [Ev.armSignalHandler, Ev.loadConfig, Ev.getObject "b" "run.sh",
         Ev.createTemp (tmpPattern envOkNoExec.goos "run.sh"),
         Ev.copyStream (tmpPathOf "/tmp" "123456" envOkNoExec.goos "run.sh"),
         Ev.chmod (tmpPathOf "/tmp" "123456" envOkNoExec.goos "run.sh") 493,
         Ev.fileClose (tmpPathOf "/tmp" "123456" envOkNoExec.goos "run.sh"),
         Ev.stdoutLine (tmpPathOf "/tmp" "123456" envOkNoExec.goos "run.sh"),
         Ev.bodyClose]) :=
  main_write_order envOkNoExec "s3://b/run.sh" ("b", "run.sh")
    rfl (by decide) rfl rfl rfl rfl rfl rfl rfl rfl

/-- C6: for every locator of the form "s3://C/K" (over the safe
container/key alphabets) parsing returns container C and key K with the
leading path separator stripped, and for every input that does not parse
as an s3-scheme URL — any other scheme, or a string the URL parser
rejects — parsing fails with one of the two "not a recognized locator"
errors (`invalidURL` / `notS3URL`). -/
theorem parseS3URL_spec :
    (∀ C K : String, (∀ c ∈ C.data, hostSafe c = true) → (∀ c ∈ K.data, keySafe c = true) →
      parseS3URL ("s3://" ++ C ++ "/" ++ K) = Except.ok (C, K)) ∧
    (∀ s : String, schemeIsS3 s = false → ∃ e, parseS3URL s = Except.error e) :=
  ⟨parseS3URLOkForm, parseS3URLRejects⟩

/-- Witness for C6: the spec's own scenarios — "s3://my-bucket/path/to/file.txt"
parses to ("my-bucket", "path/to/file.txt"), and "http://my-bucket/file.txt"
(scheme mismatch) fails. -/
theorem parseS3URL_spec_witness :
    parseS3URL ("s3://" ++ "my-bucket" ++ "/" ++ "path/to/file.txt")
      = Except.ok ("my-bucket", "path/to/file.txt") ∧
    ∃ e, parseS3URL "http://my-bucket/file.txt" = Except.error e :=
  ⟨parseS3URL_spec.1 "my-bucket" "path/to/file.txt" (by decide) (by decide),
   parseS3URL_spec.2 "http://my-bucket/file.txt" (by decide)⟩

/-- C7: the Executor's invocation strategy is selected solely from the
platform and the case-insensitively compared file extension, exactly as
the spec's dispatch table states, and all three standard streams of the
child are inherited from the current process. -/
theorem executeFile_dispatch_spec (goos path : String) :
    executeFileCmd goos path =
      ⟨strategyArgv
          (specDispatch (goos == "windows") (toLowerStr (filepathExt isSepWindows path)))
          path,
        true, true, true⟩ := by
  by_cases h : goos = "windows"
  · simp only [executeFileCmd, specDispatch, h, beq_self_eq_true, if_true]
    split
    · simp [strategyArgv]
    · split
      · simp [strategyArgv]
      · split <;> simp [strategyArgv]
  · simp [executeFileCmd, specDispatch, h, strategyArgv]

/-- C8: in debug mode the Shutdown Scheduler writes exactly one line —
"Debug: Would execute command: " followed by the %v rendering of the
platform command's argv — to standard output after the delay, executes
zero real commands, and returns success, on every platform and whatever
the real command's outcome would have been. -/
theorem shutdownSystem_debug_spec (delay : Nat) (goos : String) (runOk : Bool) :
    shutdownSystem delay true goos runOk =
      ([Ev.sleep delay,
        Ev.stdoutLine
          ("Debug: Would execute command: " ++ goSliceFmt (shutdownCmdArgv goos))],
       true) ∧
    (shutdownSystem delay true goos runOk).1.countP isRunCmdEv = 0 := by
  constructor
  · rfl
  · simp [shutdownSystem, List.countP_cons, isRunCmdEv]

/-- C9: if the stream copy fails after the destination file was created
(in either the temp-file or the --save mode), the failing path performs
exactly one file creation, no removal or rollback, and exits with
status 1 — the partial file is left in place. -/
theorem main_copy_failure_leaves_partial_file (env : Env) (u : String) (bk : String × String)
    (h0 : env.argv = [u]) (h1 : parseS3URL u = Except.ok bk)
    (h2 : env.postExecFlag = "") (h4 : env.configOk = true) (h5 : env.fetchOk = true)
    (h6 : env.mkdirOk = true) (h7 : env.createOk = true)
    (h9 : env.copyOk = false) :
    (mainRun env).1.countP isCreateEv = 1 ∧
    (mainRun env).1.countP isRemoveEv = 0 ∧
    (mainRun env).2 = 1 := by
  simp only [mainRun, mainRunSt, writeTailSt, h0, h1, h2, h4, h5, h6, h7, h9]
  by_cases hs : env.saveFlag = "" <;>
    simp [hs, tagFst, tagFstComp, List.map_append, List.countP_append, List.countP_cons,
      isCreateEv, isRemoveEv]

/-- Witness for C9 at a concrete Linux run whose copy step fails. -/
theorem main_copy_failure_leaves_partial_file_witness :
    (mainRun envCopyFail).1.countP isCreateEv = 1 ∧
    (mainRun envCopyFail).1.countP isRemoveEv = 0 ∧
    (mainRun envCopyFail).2 = 1 :=
  main_copy_failure_leaves_partial_file envCopyFail "s3://b/run.sh" ("b", "run.sh")
    rfl (by decide) rfl rfl rfl rfl rfl rfl

/-- C10 (counterexample): for the key "f.*" (extension ".*") the
generated temporary path does not end with the key's extension — the
'*' inside the extension is where `os.CreateTemp` splices the random
string, because it is the last '*' of the whole pattern
"bootstrap-*-f.*". -/
theorem tmpPath_star_ext_counterexample :
    filepathExt (isSepOf "linux") "f.*" = ".*" ∧
    ((filepathExt (isSepOf "linux") "f.*").data.isSuffixOf
        (tmpPathOf "/tmp" "123456" "linux" "f.*").data) = false := by decide

/-- C10 (amended): for every nonempty key that does not end in a path
separator and whose base name (final path element) contains no '*',
the generated temporary path ends with the key's extension, and the
extension the Executor inspects on the temporary path equals the key's
extension (the random component `os.CreateTemp` inserts is a decimal
numeral; on Windows targets the key is further restricted to colon- and
backslash-free strings, on which Go's volume-name handling is vacuous). -/
theorem tmpPath_ext_spec (tempDir rand goos key : String)
    (hne : key ≠ "")
    (hlast : ∀ s, key.data.reverse.head? = some s → isSepOf goos s = false)
    (hstar : ∀ c ∈ (filepathBase goos key).data, c ≠ '*')
    (hrand : ∀ c ∈ rand.data, isDigit c = true)
    (hwin : goos = "windows" → ∀ c ∈ key.data, c ≠ ':' ∧ c ≠ '\\') :
    (∃ pre : String,
      tmpPathOf tempDir rand goos key = pre ++ filepathExt (isSepOf goos) key) ∧
    filepathExt (isSepOf goos) (tmpPathOf tempDir rand goos key)
      = filepathExt (isSepOf goos) key := by
  have hBdata : (filepathBase goos key).data
      = (key.data.reverse.takeWhile (fun c => !(isSepOf goos c))).reverse := by
    simp only [filepathBase]
    rw [if_neg hne, dropWhileIdOfHead (isSepOf goos) key.data.reverse hlast]
    have hnil : ¬ ((key.data.reverse.takeWhile (fun c => !(isSepOf goos c))).reverse = []) := by
      cases hk : key.data.reverse with
      | nil =>
        exfalso
        apply hne
        apply strExt
        have : key.data = [] := by
          have := congrArg List.reverse hk
          simpa using this
        rw [this]
      | cons x xs =>
        have hx : isSepOf goos x = false := hlast x (by rw [hk]; rfl)
        rw [List.takeWhile_cons, if_pos (by simp [hx])]
        simp
    rw [if_neg hnil]
  have hBrev : (filepathBase goos key).data.reverse
      = key.data.reverse.takeWhile (fun c => !(isSepOf goos c)) := by
    rw [hBdata, List.reverse_reverse]
  have hbSep : ∀ c ∈ key.data.reverse.takeWhile (fun c => !(isSepOf goos c)),
      isSepOf goos c = false := by
    intro c hc
    have := takeWhileMem (fun c => !(isSepOf goos c)) key.data.reverse c hc
    simpa using this
  have hExtKey : (filepathExt (isSepOf goos) key).data
      = extAux (isSepOf goos) [] (key.data.reverse.takeWhile (fun c => !(isSepOf goos c))) :=
    extAuxTakeWhileSep (isSepOf goos) key.data.reverse []
  have hname : createTempName (tmpPattern goos key) rand
      = "bootstrap-" ++ rand ++ ("-" ++ filepathBase goos key) :=
    createTempNameSplice (filepathBase goos key) rand hstar
  have hdata : (tmpPathOf tempDir rand goos key).data
      = tempDir.data ++ sepCharOf goos ::
          (("bootstrap-" : String).data ++ (rand.data ++ '-' :: (filepathBase goos key).data)) := by
    unfold tmpPathOf
    rw [hname]
    simp [strDataAppend, osSepData]
  have hdataRev : (tmpPathOf tempDir rand goos key).data.reverse
      = (key.data.reverse.takeWhile (fun c => !(isSepOf goos c)) ++
          '-' :: (rand.data.reverse ++ ("bootstrap-" : String).data.reverse)) ++
        sepCharOf goos :: tempDir.data.reverse := by
    rw [hdata]
    simp [← hBrev]
  rcases extAuxDecomp (isSepOf goos)
      (key.data.reverse.takeWhile (fun c => !(isSepOf goos c))) [] with hnil | ⟨w, r, hsplit, hres, hw⟩
  · -- the key has no extension
    have hext0 : filepathExt (isSepOf goos) key = "" := by
      apply strExt
      rw [hExtKey, hnil]
    have hclean : ∀ c ∈ key.data.reverse.takeWhile (fun c => !(isSepOf goos c)) ++
        '-' :: (rand.data.reverse ++ ("bootstrap-" : String).data.reverse),
        isSepOf goos c = false ∧ c ≠ '.' := by
      intro c hc
      rcases List.mem_append.mp hc with hc | hc
      · exact extAuxNilClean (isSepOf goos) _ [] hnil hbSep c hc
      · rcases List.mem_cons.mp hc with rfl | hc
        · exact dashFacts goos
        · rcases List.mem_append.mp hc with hc | hc
          · exact digitFacts goos c (hrand c (List.mem_reverse.mp hc))
          · exact stemFacts goos c hc
    constructor
    · refine ⟨tmpPathOf tempDir rand goos key, ?_⟩
      rw [hext0]
      apply strExt
      rw [strDataAppend]
      simp
    · rw [hext0]
      apply strExt
      show extAux (isSepOf goos) [] (tmpPathOf tempDir rand goos key).data.reverse = _
      rw [hdataRev]
      rw [extAuxSkip (isSepOf goos) _ _ _ hclean]
      rw [extAux, if_pos (sepCharIsSep goos)]
  · -- the key's extension is '.' followed by w.reverse
    have hextd : (filepathExt (isSepOf goos) key).data = '.' :: w.reverse := by
      rw [hExtKey, hres]
      simp
    have hB : (filepathBase goos key).data = r.reverse ++ '.' :: w.reverse := by
      rw [hBdata, hsplit]
      simp
    constructor
    · refine ⟨⟨tempDir.data ++ sepCharOf goos ::
          (("bootstrap-" : String).data ++ (rand.data ++ '-' :: r.reverse))⟩, ?_⟩
      apply strExt
      rw [strDataAppend, hdata, hB, hextd]
      simp
    · apply strExt
      show extAux (isSepOf goos) [] (tmpPathOf tempDir rand goos key).data.reverse = _
      rw [hdataRev, hsplit, hextd]
      rw [show (w ++ '.' :: r) ++ '-' :: (rand.data.reverse ++ ("bootstrap-" : String).data.reverse)
          = w ++ '.' :: (r ++ '-' :: (rand.data.reverse ++ ("bootstrap-" : String).data.reverse))
          from by simp]
      rw [List.append_assoc]
      rw [extAuxSkip (isSepOf goos) w _ _ hw]
      rw [List.cons_append, extAux, if_neg (by simp [isSepDotFalse goos]), if_pos rfl]
      simp

/-- Witness for the amended C10 at the key "run.sh" with the random
component "123456" on Linux. -/
theorem tmpPath_ext_spec_witness :
    (∃ pre : String,
      tmpPathOf "/tmp" "123456" "linux" "run.sh"
        = pre ++ filepathExt (isSepOf "linux") "run.sh") ∧
    filepathExt (isSepOf "linux") (tmpPathOf "/tmp" "123456" "linux" "run.sh")
      = filepathExt (isSepOf "linux") "run.sh" :=
  tmpPath_ext_spec "/tmp" "123456" "linux" "run.sh"
    (by decide) (by decide) (by decide) (by decide) (by decide)

